import Mathlib

/-!
Shallow embedding of `src/bbrun.c` (Bumblebee's child-process lifecycle
manager) and proofs about it.

The global PID registry of `bbrun.c` is a hand-rolled linked structure:
nodes (`struct pidlist`) are heap-allocated, hold a `pid_t` and `prev`/`next`
pointers, and the global `pidlist_start` points at the head.  We model the
heap explicitly: addresses are `Nat` (with `0` playing the role of the NULL
pointer), the heap is an association list from addresses to nodes, and a
bump allocator hands out fresh addresses starting at `1`.  `free` deletes
the node from the heap; dereferencing an address outside the heap (a NULL
or dangling pointer) is C undefined behaviour and is modelled by `Option`
failure where the claims need it.

PIDs and signal numbers are modelled as `Int` (the C `pid_t` and `int`).
-/

namespace BBRun

/-- A node of `struct pidlist` (bbrun.c:37-41): a PID plus `prev` and `next`
pointers, modelled as heap addresses with `0` for NULL. -/
structure Node where
  PID : Int
  prev : Nat
  next : Nat
deriving Repr, DecidableEq

/-- The mutable global state of bbrun.c's registry: the heap of allocated
`pidlist` nodes, the global `pidlist_start` pointer (bbrun.c:43), and the
next fresh address of the bump allocator (never `0`, so an allocated node is
never at the NULL address). -/
structure BBState where
  heap : List (Nat × Node)
  start : Nat
  fresh : Nat
deriving Repr, DecidableEq

/-- The initial state: `pidlist_start = 0`, empty heap. -/
def initState : BBState := { heap := [], start := 0, fresh := 1 }

/-- Dereference a heap address: `none` models a NULL or dangling pointer
dereference (C undefined behaviour). -/
def hLookup (h : List (Nat × Node)) (a : Nat) : Option Node :=
  match h with
  | [] => none
  | (b, n) :: t => if a = b then some n else hLookup t a

/-- Store a node at an (allocated) address. -/
def hUpdate (h : List (Nat × Node)) (a : Nat) (n : Node) : List (Nat × Node) :=
  match h with
  | [] => []
  | (b, m) :: t => if a = b then (b, n) :: t else (b, m) :: hUpdate t a n

/-- Model of `free`: deallocate the node at the given address. -/
def hRemove (h : List (Nat × Node)) (a : Nat) : List (Nat × Node) :=
  match h with
  | [] => []
  | (b, m) :: t => if a = b then t else (b, m) :: hRemove t a

/-- `pidlist_add` (bbrun.c:49-56): mallocs a node, sets its PID, sets
`prev = 0`, sets `next = pidlist_start ? pidlist_start : 0`, and makes it
the new head.  Note it never links the old head's `prev` back to the new
node. -/
def pidlist_add (newpid : Int) (s : BBState) : BBState :=
  let a := s.fresh
  let curr : Node :=
    { PID := newpid, prev := 0, next := if s.start ≠ 0 then s.start else 0 }
  { heap := (a, curr) :: s.heap, start := a, fresh := a + 1 }

/-- The loop of `pidlist_remove` (bbrun.c:60-77), one fuel per iteration.
Faithful statement order for a matching node `curr`:
`next_iter = curr->next` is saved first; then
`if (curr->next) curr->next = curr->prev;` mutates the node's own `next`;
then `if (curr->prev) curr->prev = curr->next; else pidlist_start = curr->next;`
reads the possibly-mutated `next`; then `free(curr)`; iteration continues at
`next_iter`.  A dereference failure (only possible on a corrupted state)
stops the loop with the state as is. -/
def removeLoop (rempid : Int) :
    Nat → Nat → List (Nat × Node) → Nat → List (Nat × Node) × Nat
  | 0, _, heap, start => (heap, start)
  | fuel + 1, curr, heap, start =>
    if curr = 0 then (heap, start)
    else
      match hLookup heap curr with
      | none => (heap, start)
      | some node =>
        let next_iter := node.next
        if node.PID = rempid then
          let n1 : Node := if node.next ≠ 0 then { node with next := node.prev } else node
          let heap1 := hUpdate heap curr n1
          if n1.prev ≠ 0 then
            let n2 : Node := { n1 with prev := n1.next }
            removeLoop rempid fuel next_iter (hRemove (hUpdate heap1 curr n2) curr) start
          else
            removeLoop rempid fuel next_iter (hRemove heap1 curr) n1.next
        else
          removeLoop rempid fuel next_iter heap start

/-- `pidlist_remove` (bbrun.c:60-77).  The fuel `heap.length + 1` covers the
traversal: in every reachable state the `next` chain from `pidlist_start`
is strictly address-decreasing, so the loop visits at most `heap.length`
distinct nodes before reaching NULL. -/
def pidlist_remove (rempid : Int) (s : BBState) : BBState :=
  let r := removeLoop rempid (s.heap.length + 1) s.start s.heap s.start
  { s with heap := r.1, start := r.2 }

/-- The loop of `pidlist_find` (bbrun.c:82-90), one fuel per iteration. -/
def findLoop (findpid : Int) (heap : List (Nat × Node)) :
    Nat → Nat → Bool
  | 0, _ => false
  | fuel + 1, curr =>
    if curr = 0 then false
    else
      match hLookup heap curr with
      | none => false
      | some node =>
        if node.PID = findpid then true
        else findLoop findpid heap fuel node.next

/-- `pidlist_find` (bbrun.c:82-90): returns `true` iff `findpid` occurs on
the chain from `pidlist_start`. -/
def pidlist_find (findpid : Int) (s : BBState) : Bool :=
  findLoop findpid s.heap (s.heap.length + 1) s.start

/-- `bb_is_running` (bbrun.c:202-204): a pure registry membership test. -/
def bb_is_running (proc : Int) (s : BBState) : Bool :=
  pidlist_find proc s

/-- The observable registry contents: the PIDs along the `next` chain from
`pidlist_start`, head first. -/
def chainPids (heap : List (Nat × Node)) : Nat → Nat → List Int
  | 0, _ => []
  | fuel + 1, a =>
    if a = 0 then []
    else
      match hLookup heap a with
      | none => []
      | some node => node.PID :: chainPids heap fuel node.next

/-- The list of PIDs currently in the registry. -/
def regPids (s : BBState) : List Int :=
  chainPids s.heap (s.heap.length + 1) s.start

example : regPids (pidlist_add 7 (pidlist_add 5 initState)) = [7, 5] := by decide

example : regPids (pidlist_remove 7 (pidlist_add 7 (pidlist_add 5 initState))) = [] := by
  decide

example : pidlist_find 5 (pidlist_remove 7 (pidlist_add 7 (pidlist_add 5 initState))) = false := by
  decide

example : regPids (pidlist_remove 9 (pidlist_add 7 (pidlist_add 5 initState))) = [7, 5] := by
  decide

/-! Signal numbers as on Linux (signal.h), used by bbrun.c. -/

/-- The graceful-terminate signal SIGTERM. -/
def SIGTERM : Int := 15

/-- The force-kill signal SIGKILL. -/
def SIGKILL : Int := 9

/-- The child-termination notification signal SIGCHLD. -/
def SIGCHLD : Int := 17

/-- Log events emitted through `bb_log` by bbrun.c, abstracting the logging
collaborator: level and content of each call site. -/
inductive BBLogEvent where
  /-- LOG_INFO "Process %s started, PID %i." (bbrun.c:127, 158, 182) -/
  | processStarted (pid : Int)
  /-- LOG_ERR "Process %s could not be started. fork() failed." (bbrun.c:132, 163, 187) -/
  | forkFailed
  /-- LOG_DEBUG "Process with PID %i terminated." (bbrun.c:97) -/
  | processTerminated (pid : Int)
  /-- LOG_ERR "Error running ...: %s" with strerror(errno) (bbrun.c:250) -/
  | execFailed (errmsg : String)
deriving Repr, DecidableEq

/-- Outcome of `bb_run_exec` (bbrun.c:248-252) in the child: either `execvp`
succeeds and the image is replaced, or the child logs the OS error
description and calls `exit` with the given code. -/
inductive ExecOutcome where
  | imageReplaced
  | exited (code : Int) (logs : List BBLogEvent)
deriving Repr, DecidableEq

/-- `bb_run_exec` (bbrun.c:248-252): `execvp(argv[0], argv)`; if it returns
(i.e. fails), log the strerror description of errno at LOG_ERR and
`exit(42)`.  `execOk` models whether `execvp` succeeds and `errmsg` the
`strerror(errno)` string on failure. -/
def bb_run_exec (execOk : Bool) (errmsg : String) : ExecOutcome :=
  if execOk then ExecOutcome.imageReplaced
  else ExecOutcome.exited 42 [BBLogEvent.execFailed errmsg]

/-- The parent-side behaviour of `bb_run_fork` (bbrun.c:120-139), as a
function of the value `forkRet` returned by `fork()`: `forkRet > 0` is the
parent of a new child with that PID, `forkRet < 0` is fork failure, and
`forkRet = 0` is the child, which continues in `bb_run_exec` and never
returns from this call (`none`).  Result: the returned `pid_t`, the new
registry state, and the log events emitted. -/
def bb_run_fork (forkRet : Int) (s : BBState) :
    Option (Int × BBState × List BBLogEvent) :=
  if forkRet = 0 then none
  else if forkRet > 0 then
    some (forkRet, pidlist_add forkRet s, [BBLogEvent.processStarted forkRet])
  else
    some (0, s, [BBLogEvent.forkFailed])

/-- The parent-side behaviour of `bb_run_fork_ld` (bbrun.c:148-168).  The
parent path is identical to `bb_run_fork`; the `ldpath` argument is used
only in the child (a `setenv` of LD_LIBRARY_PATH before `bb_run_exec`), so
it does not affect the parent's result. -/
def bb_run_fork_ld (forkRet : Int) (ldpath : String) (s : BBState) :
    Option (Int × BBState × List BBLogEvent) :=
  if forkRet = 0 then none
  else if forkRet > 0 then
    some (forkRet, pidlist_add forkRet s, [BBLogEvent.processStarted forkRet])
  else
    some (0, s, [BBLogEvent.forkFailed])

/-!
The `bb_stop_wait` loop (bbrun.c:216-229):

    int i = 0;
    while (bb_is_running(proc)) {
      ++i;
      if (i < 10) kill(proc, SIGTERM); else kill(proc, SIGKILL);
      usleep(1000000);
    }

The SIGCHLD handler may run during the `usleep`, mutating the registry, so
we model the environment as the list of registry states the loop observes at
each re-check of its condition after the first.  The run returns
`some (finalState, signals)` when the condition becomes false within the
given environment (`signals` is the sequence of signal numbers sent, in
order), and `none` when the environment is exhausted with the process still
tracked, i.e. the call has not yet returned and would keep looping.
-/

/-- One execution of the `bb_stop_wait` loop from attempt counter `i`,
current registry state `s`, and environment `env` of subsequently observed
registry states. -/
def stop_wait_aux (proc : Int) :
    List BBState → Nat → BBState → Option (BBState × List Int)
  | env, i, s =>
    if pidlist_find proc s then
      match env with
      | [] => none
      | s2 :: rest =>
        match stop_wait_aux proc rest (i + 1) s2 with
        | none => none
        | some (r, sigs) =>
          some (r, (if i + 1 < 10 then SIGTERM else SIGKILL) :: sigs)
    else some (s, [])

/-- `bb_stop_wait` (bbrun.c:216-229) starting from attempt counter `i = 0`. -/
def bb_stop_wait (proc : Int) (s : BBState) (env : List BBState) :
    Option (BBState × List Int) :=
  stop_wait_aux proc env 0 s

/-!
`bb_stop_all` (bbrun.c:232-244):

    struct pidlist *next = pidlist_start;
    struct pidlist *curr;
    while (next) {
      curr = next;
      next = pidlist_start->next;
      bb_stop_wait(curr->PID);
    }

It iterates the live list (`pidlist_start->next` is re-read from the global
head every iteration; no snapshot is taken), while `bb_stop_wait` blocks
until the SIGCHLD handler has removed the PID.  We model each `bb_stop_wait`
call by its registry effect in the normal environment: the signalled process
dies and the handler runs `pidlist_remove` on its PID once; if the PID is
not tracked the loop body of `bb_stop_wait` never runs and the registry is
untouched.
-/

/-- Registry effect of one `bb_stop_wait(proc)` call in the environment
where the signalled process dies and the SIGCHLD handler (bbrun.c:92-99)
performs the removal; for an untracked PID the call returns immediately. -/
def stop_wait_effect (proc : Int) (s : BBState) : BBState :=
  if pidlist_find proc s then pidlist_remove proc s else s

/-- The `bb_stop_all` loop, one fuel per iteration.  Statement order is
faithful: the dereference `pidlist_start->next` happens before the
`bb_stop_wait(curr->PID)` call.  `none` models a NULL or dangling pointer
dereference (C undefined behaviour) or fuel exhaustion. -/
def stopAllLoop : Nat → Nat → BBState → Option BBState
  | 0, _, _ => none
  | fuel + 1, next, s =>
    if next = 0 then some s
    else
      match hLookup s.heap s.start with
      | none => none
      | some startNode =>
        match hLookup s.heap next with
        | none => none
        | some currNode =>
          stopAllLoop fuel startNode.next (stop_wait_effect currNode.PID s)

/-- `bb_stop_all` (bbrun.c:232-244). -/
def bb_stop_all (s : BBState) : Option BBState :=
  stopAllLoop (s.heap.length + 1) s.start s

example : bb_stop_all initState = some initState := by decide

example :
    bb_stop_all (pidlist_add 5 initState) =
      some { heap := [], start := 0, fresh := 2 } := by decide

/-!
System-level model: bbrun.c's registry together with the OS-visible child
processes, to express runs in which the asynchronous SIGCHLD handler
(the Reaper) interleaves with launches and child exits.
-/

/-- bbrun.c's registry plus the OS state of this process's children:
`alive` are running child PIDs, `zombies` are children that have terminated
but have not been waited for, in termination order (these are exactly the
children `wait` can reap immediately). -/
structure SysState where
  reg : BBState
  alive : List Int
  zombies : List Int
deriving Repr, DecidableEq

/-- The initial system state: no children, empty registry. -/
def sysInit : SysState := { reg := initState, alive := [], zombies := [] }

/-- `childsig_handler` (bbrun.c:92-99): on a non-SIGCHLD signal, return; on
SIGCHLD, call `wait(0)` once, log, and `pidlist_remove` the returned PID.
POSIX `wait`: if a terminated child is available it is reaped immediately;
if children exist but none has terminated the call blocks (`none`: the
handler does not return); with no children at all it fails with ECHILD and
returns `-1`, so `pidlist_remove (-1)` runs. -/
def childsig_handler (signum : Int) (s : SysState) : Option SysState :=
  if signum ≠ SIGCHLD then some s
  else
    match s.zombies with
    | p :: rest => some { s with reg := pidlist_remove p s.reg, zombies := rest }
    | [] =>
      if s.alive.isEmpty then some { s with reg := pidlist_remove (-1) s.reg }
      else none

/-- Events of a system run: a successful `bb_run_fork` (the OS picked fresh
PID `pid > 0`), a failed fork, the termination of a running child (an OS
event), and the delivery of SIGCHLD running the handler. -/
inductive SysEvent where
  | forkSuccess (pid : Int)
  | forkFail
  | childExit (pid : Int)
  | sigchld
deriving Repr, DecidableEq

/-- One system step.  `none` means the event is not enabled in this state
(the OS cannot produce it) or the handler blocked.  `forkSuccess pid`
requires `pid` to be positive and not the PID of an existing child (alive or
zombie), which is what the OS guarantees for a new PID; its registry effect
is the `pidlist_add` of bbrun.c:129.  `forkFail` leaves the registry
unchanged (bbrun.c:131-133). -/
def sysStep (e : SysEvent) (s : SysState) : Option SysState :=
  match e with
  | SysEvent.forkSuccess pid =>
    if pid > 0 ∧ pid ∉ s.alive ∧ pid ∉ s.zombies then
      some { s with reg := pidlist_add pid s.reg, alive := pid :: s.alive }
    else none
  | SysEvent.forkFail => some s
  | SysEvent.childExit pid =>
    if pid ∈ s.alive then
      some { s with alive := s.alive.erase pid, zombies := s.zombies ++ [pid] }
    else none
  | SysEvent.sigchld => childsig_handler SIGCHLD s

/-- Run a sequence of system events from a state. -/
def runSys : List SysEvent → SysState → Option SysState
  | [], s => some s
  | e :: t, s =>
    match sysStep e s with
    | none => none
    | some s2 => runSys t s2

/-!
Registry states reachable by sequences of `pidlist_add` / `pidlist_remove`
operations, and the singly-linked invariant.
-/

/-- A registry operation: the two mutators of the pidlist. -/
inductive RegOp where
  | add (pid : Int)
  | remove (pid : Int)
deriving Repr, DecidableEq

/-- Apply one registry operation. -/
def applyOp : RegOp → BBState → BBState
  | RegOp.add p, s => pidlist_add p s
  | RegOp.remove p, s => pidlist_remove p s

/-- Apply a sequence of registry operations, first operation first. -/
def runOps : List RegOp → BBState → BBState
  | [], s => s
  | o :: t, s => runOps t (applyOp o s)

/-- Every allocated node of the heap has a NULL `prev` pointer. -/
def prevsNull (h : List (Nat × Node)) : Prop :=
  ∀ p ∈ h, p.2.prev = 0

theorem hLookup_mem {h : List (Nat × Node)} {a : Nat} {n : Node}
    (hl : hLookup h a = some n) : (a, n) ∈ h := by
  induction h with
  | nil => simp [hLookup] at hl
  | cons p t ih =>
    obtain ⟨b, m⟩ := p
    by_cases hab : a = b
    · subst hab
      simp [hLookup] at hl
      simp [hl]
    · simp [hLookup, hab] at hl
      exact List.mem_cons_of_mem _ (ih hl)

theorem prevsNull_hUpdate {h : List (Nat × Node)} {a : Nat} {n : Node}
    (hh : prevsNull h) (hn : n.prev = 0) : prevsNull (hUpdate h a n) := by
  induction h with
  | nil => intro p hp; simp [hUpdate] at hp
  | cons q t ih =>
    obtain ⟨b, m⟩ := q
    intro p hp
    by_cases hab : a = b
    · simp [hUpdate, hab] at hp
      rcases hp with hp | hp
      · simp [hp, hn]
      · exact hh p (List.mem_cons_of_mem _ hp)
    · simp only [hUpdate, if_neg hab, List.mem_cons] at hp
      rcases hp with hp | hp
      · exact hh p (by simp [hp])
      · exact ih (fun q hq => hh q (List.mem_cons_of_mem _ hq)) p hp

theorem prevsNull_hRemove {h : List (Nat × Node)} {a : Nat}
    (hh : prevsNull h) : prevsNull (hRemove h a) := by
  induction h with
  | nil => intro p hp; simp [hRemove] at hp
  | cons q t ih =>
    obtain ⟨b, m⟩ := q
    intro p hp
    by_cases hab : a = b
    · simp only [hRemove, if_pos hab] at hp
      exact hh p (List.mem_cons_of_mem _ hp)
    · simp only [hRemove, if_neg hab, List.mem_cons] at hp
      rcases hp with hp | hp
      · exact hh p (by simp [hp])
      · exact ih (fun q hq => hh q (List.mem_cons_of_mem _ hq)) p hp

theorem prevsNull_removeLoop (rempid : Int) :
    ∀ fuel curr heap start, prevsNull heap →
      prevsNull (removeLoop rempid fuel curr heap start).1 := by
  intro fuel
  induction fuel with
  | zero => intro curr heap start hh; exact hh
  | succ k ih =>
    intro curr heap start hh
    by_cases hc : curr = 0
    · simpa [removeLoop, hc] using hh
    · cases hl : hLookup heap curr with
      | none => simpa [removeLoop, hc, hl] using hh
      | some node =>
        have hprev : node.prev = 0 := hh (curr, node) (hLookup_mem hl)
        by_cases hp : node.PID = rempid
        · have hn1 :
              (if node.next ≠ 0 then { node with next := node.prev } else node).prev
                = 0 := by
            by_cases hnx : node.next ≠ 0 <;> simp [hnx, hprev]
          simp only [removeLoop, if_neg hc, hl, if_pos hp, hn1]
          simp only [ne_eq, not_true_eq_false, if_false, reduceIte]
          exact ih _ _ _ (prevsNull_hRemove (prevsNull_hUpdate hh hn1))
        · simp only [removeLoop, if_neg hc, hl, if_neg hp]
          exact ih _ _ _ hh

theorem prevsNull_applyOp (o : RegOp) (s : BBState)
    (hh : prevsNull s.heap) : prevsNull (applyOp o s).heap := by
  cases o with
  | add p =>
    intro q hq
    simp only [applyOp, pidlist_add, List.mem_cons] at hq
    rcases hq with hq | hq
    · simp [hq]
    · exact hh q hq
  | remove p => exact prevsNull_removeLoop p _ _ _ _ hh

theorem prevsNull_runOps (ops : List RegOp) :
    ∀ s, prevsNull s.heap → prevsNull (runOps ops s).heap := by
  induction ops with
  | nil => intro s hh; exact hh
  | cons o t ih => intro s hh; exact ih _ (prevsNull_applyOp o s hh)

/-!
Behaviour of the `bb_stop_wait` loop over an arbitrary environment.
-/

theorem stop_wait_aux_not_running (proc : Int) :
    ∀ env i s r sigs, stop_wait_aux proc env i s = some (r, sigs) →
      pidlist_find proc r = false := by
  intro env
  induction env with
  | nil =>
    intro i s r sigs h
    by_cases hf : pidlist_find proc s
    · simp [stop_wait_aux, hf] at h
    · simp only [stop_wait_aux, hf, if_false, Bool.false_eq_true,
        Option.some.injEq, Prod.mk.injEq] at h
      rw [← h.1]
      simp [hf]
  | cons s2 rest ih =>
    intro i s r sigs h
    by_cases hf : pidlist_find proc s
    · simp only [stop_wait_aux, hf, if_true] at h
      cases hrec : stop_wait_aux proc rest (i + 1) s2 with
      | none => rw [hrec] at h; simp at h
      | some p =>
        obtain ⟨r2, sigs2⟩ := p
        rw [hrec] at h
        simp only [Option.some.injEq, Prod.mk.injEq] at h
        rw [← h.1]
        exact ih (i + 1) s2 r2 sigs2 hrec
    · simp only [stop_wait_aux, hf, if_false, Bool.false_eq_true,
        Option.some.injEq, Prod.mk.injEq] at h
      rw [← h.1]
      simp [hf]

theorem stop_wait_aux_still_running (proc : Int) :
    ∀ env i s, pidlist_find proc s = true →
      (∀ t ∈ env, pidlist_find proc t = true) →
      stop_wait_aux proc env i s = none := by
  intro env
  induction env with
  | nil => intro i s hs _; simp [stop_wait_aux, hs]
  | cons s2 rest ih =>
    intro i s hs henv
    have h2 : stop_wait_aux proc rest (i + 1) s2 = none :=
      ih (i + 1) s2 (henv s2 (by simp)) (fun t ht => henv t (List.mem_cons_of_mem _ ht))
    simp [stop_wait_aux, hs, h2]

theorem stop_wait_aux_signals (proc : Int) :
    ∀ env i s r sigs, stop_wait_aux proc env i s = some (r, sigs) →
      ∀ n, n < sigs.length →
        sigs.getD n 0 = if i + n + 1 < 10 then SIGTERM else SIGKILL := by
  intro env
  induction env with
  | nil =>
    intro i s r sigs h n hn
    by_cases hf : pidlist_find proc s
    · simp [stop_wait_aux, hf] at h
    · simp only [stop_wait_aux, hf, if_false, Bool.false_eq_true,
        Option.some.injEq, Prod.mk.injEq] at h
      rw [← h.2] at hn
      simp at hn
  | cons s2 rest ih =>
    intro i s r sigs h n hn
    by_cases hf : pidlist_find proc s
    · simp only [stop_wait_aux, hf, if_true] at h
      cases hrec : stop_wait_aux proc rest (i + 1) s2 with
      | none => rw [hrec] at h; simp at h
      | some p =>
        obtain ⟨r2, sigs2⟩ := p
        rw [hrec] at h
        simp only [Option.some.injEq, Prod.mk.injEq] at h
        rw [← h.2] at hn ⊢
        cases n with
        | zero => simp [List.getD]
        | succ m =>
          have hm : m < sigs2.length := by
            simpa using hn
          have := ih (i + 1) s2 r2 sigs2 hrec m hm
          simpa [List.getD, Nat.add_assoc, Nat.add_comm, Nat.add_left_comm] using this
    · simp only [stop_wait_aux, hf, if_false, Bool.false_eq_true,
        Option.some.injEq, Prod.mk.injEq] at h
      rw [← h.2] at hn
      simp at hn

/-!
Claim theorems.
-/

/-- C1: evaluation of the code at the failing input.  The claim says
`pidlist_remove(p)` removes all entries matching `p` and leaves every other
PID's membership unchanged.  On the registry `[7, 5]` (built by
`pidlist_add 5; pidlist_add 7`), PID `5` is present; after
`pidlist_remove 7` the registry is empty: PID `5` has been dropped as well,
because the removal code rewrites the removed node's own pointers instead of
its neighbours' and then sets `pidlist_start` to the zeroed `next`. -/
theorem pidlist_remove_drops_other_pids :
    pidlist_find 5 (pidlist_add 7 (pidlist_add 5 initState)) = true ∧
    regPids (pidlist_remove 7 (pidlist_add 7 (pidlist_add 5 initState))) = [] ∧
    pidlist_find 5 (pidlist_remove 7 (pidlist_add 7 (pidlist_add 5 initState))) = false := by
  decide

/-- C2: evaluation of the code at the failing input.  The claim says one
handler invocation reaps all immediately-available terminated children in a
non-blocking loop.  With children 8 and 9 both terminated (two zombies
pending) and one coalesced SIGCHLD delivered, `childsig_handler` calls
`wait(0)` exactly once: child 8 is reaped but child 9 is still an unreaped
zombie when the handler returns. -/
theorem childsig_handler_reaps_only_one :
    runSys [SysEvent.forkSuccess 8, SysEvent.forkSuccess 9,
            SysEvent.childExit 8, SysEvent.childExit 9, SysEvent.sigchld] sysInit =
      some { reg := { heap := [(2, { PID := 9, prev := 0, next := 1 })],
                      start := 0, fresh := 3 },
             alive := [], zombies := [9] } := by
  decide

/-- C3: evaluation of the code at the failing input.  The claim says
`bb_stop_all` snapshots the tracked PIDs, stops each exactly once, and
leaves the registry empty.  On a registry with the two PIDs 11 and 12 the
loop iterates the live structure: after the first `bb_stop_wait` the
reaper's `pidlist_remove` empties the list and sets `pidlist_start` to
NULL, so the second iteration's `pidlist_start->next` dereferences NULL
(undefined behaviour, modelled as `none`). -/
theorem bb_stop_all_crashes_on_two_pids :
    bb_stop_all (pidlist_add 12 (pidlist_add 11 initState)) = none := by
  decide

/-- C4: in any returning run of `bb_stop_wait`, attempts 1 through 9 of the
signalling loop send SIGTERM and every attempt from the 10th onward sends
SIGKILL (`sigs.getD (i-1) 0` is the signal sent on attempt `i`). -/
theorem bb_stop_wait_signal_escalation (proc : Int) (s : BBState)
    (env : List BBState) (r : BBState) (sigs : List Int)
    (h : bb_stop_wait proc s env = some (r, sigs)) (i : Nat)
    (h1 : 1 ≤ i) (h2 : i ≤ sigs.length) :
    (i ≤ 9 → sigs.getD (i - 1) 0 = SIGTERM) ∧
    (10 ≤ i → sigs.getD (i - 1) 0 = SIGKILL) := by
  have hs := stop_wait_aux_signals proc env 0 s r sigs h (i - 1) (by omega)
  refine ⟨fun h9 => ?_, fun h10 => ?_⟩
  · rw [hs, if_pos (by omega)]
  · rw [hs, if_neg (by omega)]

/-- Witness for C4: a concrete run taking 11 attempts, checked at attempt
10 (the first SIGKILL). -/
theorem bb_stop_wait_signal_escalation_witness :
    (10 ≤ 9 →
      ([SIGTERM, SIGTERM, SIGTERM, SIGTERM, SIGTERM, SIGTERM, SIGTERM,
        SIGTERM, SIGTERM, SIGKILL, SIGKILL] : List Int).getD 9 0 = SIGTERM) ∧
    (10 ≤ 10 →
      ([SIGTERM, SIGTERM, SIGTERM, SIGTERM, SIGTERM, SIGTERM, SIGTERM,
        SIGTERM, SIGTERM, SIGKILL, SIGKILL] : List Int).getD 9 0 = SIGKILL) :=
  bb_stop_wait_signal_escalation 1 (pidlist_add 1 initState)
    (List.replicate 10 (pidlist_add 1 initState) ++ [initState]) initState
    [SIGTERM, SIGTERM, SIGTERM, SIGTERM, SIGTERM, SIGTERM, SIGTERM,
     SIGTERM, SIGTERM, SIGKILL, SIGKILL]
    (by decide) 10 (by decide) (by decide)

/-- C5: `bb_stop_wait` never returns while `bb_is_running` is true — in
every environment, if the call returns then the registry it last observed no
longer contains the PID — and it never gives up: as long as every observed
registry state still tracks the PID, the call has not returned (it keeps
looping). -/
theorem bb_stop_wait_returns_only_when_not_running (proc : Int) (s : BBState)
    (env : List BBState) :
    (∀ r sigs, bb_stop_wait proc s env = some (r, sigs) →
      bb_is_running proc r = false) ∧
    (pidlist_find proc s = true →
      (∀ t ∈ env, pidlist_find proc t = true) →
      bb_stop_wait proc s env = none) :=
  ⟨fun r sigs h => stop_wait_aux_not_running proc env 0 s r sigs h,
   fun hs henv => stop_wait_aux_still_running proc env 0 s hs henv⟩

/-- Witness for C5: a run that returns does so in a state not tracking the
PID, and a run whose every observed state tracks the PID has not returned. -/
theorem bb_stop_wait_returns_only_when_not_running_witness :
    bb_is_running 2 initState = false ∧
    bb_stop_wait 2 (pidlist_add 2 initState) [pidlist_add 2 initState] = none :=
  ⟨(bb_stop_wait_returns_only_when_not_running 2 (pidlist_add 2 initState)
      [initState]).1 initState [SIGTERM] (by decide),
   (bb_stop_wait_returns_only_when_not_running 2 (pidlist_add 2 initState)
      [pidlist_add 2 initState]).2 (by decide)
      (by
        intro t ht
        rw [List.mem_singleton] at ht
        subst ht
        decide)⟩

/-- C6: evaluation of the code at the failing input.  The claim says a PID
is present in the registry exactly when it was launched and not yet observed
to exit.  After launching children 3 and 4 and reaping the exit of child 4,
child 3 is still alive (launched, never observed to exit) yet the registry
no longer contains it: the reap of PID 4 emptied the whole list. -/
theorem registry_invariant_broken_by_sibling_reap :
    runSys [SysEvent.forkSuccess 3, SysEvent.forkSuccess 4,
            SysEvent.childExit 4, SysEvent.sigchld] sysInit =
      some { reg := { heap := [(1, { PID := 3, prev := 0, next := 0 })],
                      start := 0, fresh := 3 },
             alive := [3], zombies := [] } ∧
    pidlist_find 3 { heap := [(1, { PID := 3, prev := 0, next := 0 })],
                     start := 0, fresh := 3 } = false := by
  decide

/-- C7: when fork fails (a negative return), `bb_run_fork` and
`bb_run_fork_ld` return the invalid-PID sentinel `0`, leave the registry
exactly as it was, and emit the fork-failure error log event; the single
fork outcome in the result shows no automatic retry happens. -/
theorem bb_run_fork_failure_returns_sentinel (forkRet : Int) (ldpath : String)
    (s : BBState) (h : forkRet < 0) :
    bb_run_fork forkRet s = some (0, s, [BBLogEvent.forkFailed]) ∧
    bb_run_fork_ld forkRet ldpath s = some (0, s, [BBLogEvent.forkFailed]) := by
  have h0 : ¬forkRet = 0 := by omega
  have h1 : ¬forkRet > 0 := by omega
  exact ⟨by simp [bb_run_fork, h0, h1], by simp [bb_run_fork_ld, h0, h1]⟩

/-- Witness for C7: fork returning -1 on the empty registry. -/
theorem bb_run_fork_failure_returns_sentinel_witness :
    bb_run_fork (-1) initState = some (0, initState, [BBLogEvent.forkFailed]) ∧
    bb_run_fork_ld (-1) "/usr/lib64" initState =
      some (0, initState, [BBLogEvent.forkFailed]) :=
  bb_run_fork_failure_returns_sentinel (-1) "/usr/lib64" initState (by decide)

/-- C8: evaluation of the code at the failing input.  The claim says that
for a successfully launched PID, `bb_is_running` is true immediately after
launch and stays true until that process exits and is reaped.  Launching
child 5 makes `bb_is_running 5` true; but after sibling child 6 exits and is
reaped, `bb_is_running 5` is false even though process 5 is still alive. -/
theorem is_running_falsified_by_sibling_reap :
    runSys [SysEvent.forkSuccess 5] sysInit =
      some { reg := { heap := [(1, { PID := 5, prev := 0, next := 0 })],
                      start := 1, fresh := 2 },
             alive := [5], zombies := [] } ∧
    bb_is_running 5 { heap := [(1, { PID := 5, prev := 0, next := 0 })],
                      start := 1, fresh := 2 } = true ∧
    runSys [SysEvent.forkSuccess 5, SysEvent.forkSuccess 6,
            SysEvent.childExit 6, SysEvent.sigchld] sysInit =
      some { reg := { heap := [(1, { PID := 5, prev := 0, next := 0 })],
                      start := 0, fresh := 3 },
             alive := [5], zombies := [] } ∧
    bb_is_running 5 { heap := [(1, { PID := 5, prev := 0, next := 0 })],
                      start := 0, fresh := 3 } = false := by
  decide

/-- C9: if image replacement fails in the child, `bb_run_exec` logs the OS
error description and exits with the distinguished code 42; and 42 is the
only exit code `bb_run_exec` can produce (the core's only direct `exit`
call). -/
theorem bb_run_exec_failure_exits_42 (execOk : Bool) (errmsg : String) :
    (execOk = false →
      bb_run_exec execOk errmsg =
        ExecOutcome.exited 42 [BBLogEvent.execFailed errmsg]) ∧
    (∀ c logs, bb_run_exec execOk errmsg = ExecOutcome.exited c logs → c = 42) := by
  constructor
  · intro h
    simp [bb_run_exec, h]
  · intro c logs h
    cases execOk with
    | true => simp [bb_run_exec] at h
    | false =>
      simp only [bb_run_exec, Bool.false_eq_true, if_false,
        ExecOutcome.exited.injEq] at h
      omega

/-- Witness for C9: a failed `execvp` with ENOENT. -/
theorem bb_run_exec_failure_exits_42_witness :
    bb_run_exec false "No such file or directory" =
      ExecOutcome.exited 42 [BBLogEvent.execFailed "No such file or directory"] :=
  (bb_run_exec_failure_exits_42 false "No such file or directory").1 rfl

/-- C10: in every registry state reachable by any sequence of `pidlist_add`
and `pidlist_remove` operations from the empty list, every allocated node
has a NULL `prev` pointer: the doubly-linked structure is in fact only
singly linked. -/
theorem reachable_nodes_prev_null (ops : List RegOp) (a : Nat) (n : Node)
    (h : hLookup (runOps ops initState).heap a = some n) : n.prev = 0 :=
  prevsNull_runOps ops initState
    (by intro p hp; simp [initState] at hp) (a, n) (hLookup_mem h)

/-- Witness for C10: the node allocated by a single `pidlist_add 5`. -/
theorem reachable_nodes_prev_null_witness : (Node.mk 5 0 0).prev = 0 :=
  reachable_nodes_prev_null [RegOp.add 5] 1 (Node.mk 5 0 0) (by decide)

end BBRun
